import Mathlib

/-!
Shallow embedding of the `espeak` Go package (`doc.go` plus the generated
layout constants file) and proofs of its specified properties.

The package wraps an external text-to-speech engine.  The engine binding
itself (`setRate`, `setVolume`, `setPitch`, `setTone`, `setVoice`,
`synthesize`, `listVoices` primitives) is platform code that is not part of
the sources here; it is modelled as an abstract `Engine` record of response
functions, and every call into it is recorded in an explicit trace so that
call order and lock discipline can be stated.

Go quirks embedded faithfully:
* a Go method that panics is modelled as returning the untouched receiver
  together with `some panicMessage` (the panic fires before any mutation);
* a Go method returning `error` is modelled with an explicit result type
  distinguishing `nil`, an ordinary error value, and a panic, since the
  specification distinguishes recoverable errors from faults;
* `lock.Lock()` / `defer lock.Unlock()` become `.lockAcq` / `.lockRel`
  actions bracketing the engine calls in the trace.
-/

namespace Espeak

/-- `espeak.Error`: engine error code plus human-readable message
(`doc.go` lines 15-19). -/
structure Error where
  Code : Nat
  Message : String
deriving DecidableEq, Repr

/-- `espeak.Gender` (`doc.go` lines 198-207). -/
inductive Gender where
  | Unknown
  | Male
  | Female
  | Neutral
deriving DecidableEq, Repr

/-- The anonymous voice-query struct stored inside `Context`
(`doc.go` lines 52-58). -/
structure VoiceQuery where
  name : String
  language : String
  gender : Gender
  age : Nat
  variant : Nat
deriving DecidableEq, Repr

/-- `espeak.SynthEventType` (`doc.go` lines 244-268). -/
inductive SynthEventType where
  | EventWord
  | EventSentence
  | EventMark
  | EventPlay
  | EventEnd
  | EventMsgTerminated
  | EventPhoneme
deriving DecidableEq, Repr

/-- `espeak.SynthEvent` (`doc.go` lines 270-287).  `AudioPosition` is a
`time.Duration`, i.e. an integer count of nanoseconds. -/
structure SynthEvent where
  type : SynthEventType
  TextPosition : Int
  Length : Int
  AudioPosition : Int
  Number : Int
  Name : String
  Phoneme : String
deriving DecidableEq, Repr

/-- `espeak.Context` (`doc.go` lines 36-61).  Samples are 16-bit PCM values,
kept as `Int` here; the width never matters for the stated properties. -/
structure Context where
  Samples : List Int
  Events : List SynthEvent
  rate : Int
  volume : Int
  pitch : Int
  tone : Int
  voice : VoiceQuery
  isInit : Bool
deriving DecidableEq, Repr

/-- The zero value of `Context`: the state of a freshly declared Go
`Context` variable on which nothing has been called. -/
def zeroContext : Context :=
  { Samples := []
    Events := []
    rate := 0
    volume := 0
    pitch := 0
    tone := 0
    voice := { name := "", language := "", gender := .Unknown, age := 0, variant := 0 }
    isInit := false }

/-- `(*Context).init` (`doc.go` lines 63-73): lazy one-time defaulting. -/
def Context.init (ctx : Context) : Context :=
  if ctx.isInit then ctx
  else { ctx with isInit := true, rate := 175, volume := 100, pitch := 50, tone := 50 }

/-- `(*Context).Rate` (`doc.go` lines 78-82).  The Go method mutates the
receiver through `init` and returns the rate; both effects are returned. -/
def Context.Rate (ctx : Context) : Int × Context :=
  (ctx.init.rate, ctx.init)

/-- `(*Context).Volume` (`doc.go` lines 85-89). -/
def Context.Volume (ctx : Context) : Int × Context :=
  (ctx.init.volume, ctx.init)

/-- `(*Context).Pitch` (`doc.go` lines 94-98). -/
def Context.Pitch (ctx : Context) : Int × Context :=
  (ctx.init.pitch, ctx.init)

/-- `(*Context).Range` (`doc.go` lines 103-107): returns the `tone` field. -/
def Context.Range (ctx : Context) : Int × Context :=
  (ctx.init.tone, ctx.init)

/-- `(*Context).SetRate` (`doc.go` lines 112-120).  A Go panic is modelled
as `some message` paired with the receiver as it was at the moment of the
panic (the bounds check precedes every mutation). -/
def Context.SetRate (ctx : Context) (wpm : Int) : Context × Option String :=
  if wpm < 80 ∨ wpm > 450 then
    (ctx, some "espeak: Context.SetRate: wpm must be between 80 and 450")
  else
    ({ ctx.init with rate := wpm }, none)

/-- `(*Context).SetVolume` (`doc.go` lines 125-133). -/
def Context.SetVolume (ctx : Context) (percentage : Int) : Context × Option String :=
  if percentage < 0 then
    (ctx, some "espeak: Context.SetVolume: percentage must not be negative")
  else
    ({ ctx.init with volume := percentage }, none)

/-- `(*Context).SetPitch` (`doc.go` lines 138-146). -/
def Context.SetPitch (ctx : Context) (pitch : Int) : Context × Option String :=
  if pitch < 0 ∨ pitch > 100 then
    (ctx, some "espeak: Context.SetPitch: pitch must be between 0 and 100")
  else
    ({ ctx.init with pitch := pitch }, none)

/-- `(*Context).SetRange` (`doc.go` lines 151-159): sets the `tone` field. -/
def Context.SetRange (ctx : Context) (tone : Int) : Context × Option String :=
  if tone < 0 ∨ tone > 100 then
    (ctx, some "espeak: Context.SetRange: tone must be between 0 and 100")
  else
    ({ ctx.init with tone := tone }, none)

/-- `espeak.Language` (`doc.go` lines 179-187). -/
structure Language where
  Priority : Nat
  Name : String
deriving DecidableEq, Repr

/-- `espeak.Voice` (`doc.go` lines 161-177). -/
structure Voice where
  Name : String
  Languages : List Language
  Identifier : String
  gender : Gender
  Age : Nat
deriving DecidableEq, Repr

/-- One primitive call into the Engine Binding, as recorded in a trace. -/
inductive EngineCall where
  | setRate (wpm : Int)
  | setVolume (volume : Int)
  | setPitch (pitch : Int)
  | setTone (tone : Int)
  | setVoice (name language : String) (gender : Gender) (age variant : Nat)
  | listVoices
  | synth (text : String)
deriving DecidableEq, Repr

/-- One engine-visible action of an operation: acquiring the package-level
`lock` (`doc.go` line 31), releasing it, or a primitive engine call. -/
inductive TraceAction where
  | lockAcq
  | lockRel
  | call (c : EngineCall)
deriving DecidableEq, Repr

/-- Modelled from the spec: the Engine Binding, the external collaborator
whose Go implementation (the platform-specific `setRate`, `setVolume`,
`setPitch`, `setTone`, `setVoice`, `synthesize`, `listVoices` and
`getSampleRate` primitives) is not among the sources here.  Each setter
either accepts (`none`) or reports an engine error; `synthResult` is the
complete output of a synthesis call over a text: the PCM samples and the
decoded events its streaming callback delivers. -/
structure Engine where
  setRateErr : Int → Option Error
  setVolumeErr : Int → Option Error
  setPitchErr : Int → Option Error
  setToneErr : Int → Option Error
  setVoiceErr : VoiceQuery → Option Error
  synthResult : String → Except Error (List Int × List SynthEvent)
  voices : List Voice
  sampleRate : Int

/-- Result of a Go method that returns `error` or can panic: `nil`, an
ordinary (recoverable) error value, or an unrecoverable panic. -/
inductive CallResult where
  | ok
  | err (code : Nat) (msg : String)
  | basicErr (msg : String)
  | fault (msg : String)
deriving DecidableEq, Repr

/-- True exactly for the unrecoverable-panic outcome. -/
def CallResult.isFault : CallResult → Bool
  | .fault _ => true
  | _ => false

/-- `espeak.ListVoices` (`doc.go` lines 191-196): queries the engine catalog
under the lock. -/
def ListVoices (eng : Engine) : List Voice × List TraceAction :=
  (eng.voices, [.lockAcq, .call .listVoices, .lockRel])

/-- `espeak.validVoice` (`doc.go` lines 218-223): pushes the candidate query
to the engine voice-selection call under the lock. -/
def validVoice (eng : Engine) (name language : String) (gender : Gender)
    (age variant : Nat) : Option Error × List TraceAction :=
  (eng.setVoiceErr { name := name, language := language, gender := gender,
                     age := age, variant := variant },
   [.lockAcq, .call (.setVoice name language gender age variant), .lockRel])

/-- `(*Context).SetVoiceProperties` (`doc.go` lines 228-242): validates the
query against the engine before committing it to the Context. -/
def Context.SetVoiceProperties (eng : Engine) (ctx : Context)
    (name language : String) (gender : Gender) (age variant : Nat) :
    Context × CallResult × List TraceAction :=
  match validVoice eng name language gender age variant with
  | (some e, tr) => (ctx, .err e.Code e.Message, tr)
  | (none, tr) =>
      ({ ctx.init with voice := { name := name, language := language,
                                  gender := gender, age := age, variant := variant } },
       .ok, tr)

/-- `(*Context).SetVoice` (`doc.go` lines 210-216): on an empty name it
returns `errors.New("espeak: missing name in SetVoice")` — an ordinary Go
error value — without touching the engine or the Context. -/
def Context.SetVoice (eng : Engine) (ctx : Context) (name : String) :
    Context × CallResult × List TraceAction :=
  if name = "" then
    (ctx, .basicErr "espeak: missing name in SetVoice", [])
  else
    ctx.SetVoiceProperties eng name "" .Unknown 0 0

/-- `(*Context).synthesize` (`doc.go` lines 312-337): under the lock, pushes
rate, volume, pitch, tone and the voice query to the engine in that order,
returning the first engine error (the deferred unlock still runs), then
invokes the engine synthesis call.  Modelled from the spec: the platform
`synthesize(text, ctx)` binding is absent from the sources; per the spec's
lifecycle ("samples/events sequences are cleared and repopulated fresh by
each synthesis call") its success branch replaces `Samples` and `Events`
with this call's output. -/
def Context.synthesize (eng : Engine) (ctx : Context) (text : String) :
    Context × CallResult × List TraceAction :=
  match eng.setRateErr ctx.rate with
  | some e => (ctx, .err e.Code e.Message,
      [.lockAcq, .call (.setRate ctx.rate), .lockRel])
  | none =>
    match eng.setVolumeErr ctx.volume with
    | some e => (ctx, .err e.Code e.Message,
        [.lockAcq, .call (.setRate ctx.rate), .call (.setVolume ctx.volume), .lockRel])
    | none =>
      match eng.setPitchErr ctx.pitch with
      | some e => (ctx, .err e.Code e.Message,
          [.lockAcq, .call (.setRate ctx.rate), .call (.setVolume ctx.volume),
           .call (.setPitch ctx.pitch), .lockRel])
      | none =>
        match eng.setToneErr ctx.tone with
        | some e => (ctx, .err e.Code e.Message,
            [.lockAcq, .call (.setRate ctx.rate), .call (.setVolume ctx.volume),
             .call (.setPitch ctx.pitch), .call (.setTone ctx.tone), .lockRel])
        | none =>
          match eng.setVoiceErr ctx.voice with
          | some e => (ctx, .err e.Code e.Message,
              [.lockAcq, .call (.setRate ctx.rate), .call (.setVolume ctx.volume),
               .call (.setPitch ctx.pitch), .call (.setTone ctx.tone),
               .call (.setVoice ctx.voice.name ctx.voice.language ctx.voice.gender
                 ctx.voice.age ctx.voice.variant), .lockRel])
          | none =>
            match eng.synthResult text with
            | .error e => (ctx, .err e.Code e.Message,
                [.lockAcq, .call (.setRate ctx.rate), .call (.setVolume ctx.volume),
                 .call (.setPitch ctx.pitch), .call (.setTone ctx.tone),
                 .call (.setVoice ctx.voice.name ctx.voice.language ctx.voice.gender
                   ctx.voice.age ctx.voice.variant), .call (.synth text), .lockRel])
            | .ok out =>
                ({ ctx with Samples := out.1, Events := out.2 }, .ok,
                 [.lockAcq, .call (.setRate ctx.rate), .call (.setVolume ctx.volume),
                  .call (.setPitch ctx.pitch), .call (.setTone ctx.tone),
                  .call (.setVoice ctx.voice.name ctx.voice.language ctx.voice.gender
                    ctx.voice.age ctx.voice.variant), .call (.synth text), .lockRel])

/-- `(*Context).SynthesizeText` (`doc.go` lines 306-310): lazily initializes
the Context, then runs `synthesize`. -/
def Context.SynthesizeText (eng : Engine) (ctx : Context) (text : String) :
    Context × CallResult × List TraceAction :=
  Context.synthesize eng ctx.init text

/-- The full canonical engine-call sequence of one synthesis call of `ctx`
over `text`, in source order. -/
def fullCallList (ctx : Context) (text : String) : List EngineCall :=
  [.setRate ctx.rate, .setVolume ctx.volume, .setPitch ctx.pitch, .setTone ctx.tone,
   .setVoice ctx.voice.name ctx.voice.language ctx.voice.gender ctx.voice.age
     ctx.voice.variant,
   .synth text]

/-- A concrete initialized `Context` with distinctive field values, used by
witnesses. -/
def initCtxW : Context :=
  { Samples := [7, -3]
    Events := []
    rate := 180
    volume := 90
    pitch := 60
    tone := 40
    voice := { name := "en", language := "en-GB", gender := .Female, age := 30, variant := 2 }
    isInit := true }

/-- A concrete engine that accepts every push and synthesizes a one-sample
utterance with a single word event; used by witnesses. -/
def noErrEngine : Engine where
  setRateErr := fun _ => none
  setVolumeErr := fun _ => none
  setPitchErr := fun _ => none
  setToneErr := fun _ => none
  setVoiceErr := fun _ => none
  synthResult := fun text =>
    .ok ([(text.length : Int)],
         [{ type := .EventWord, TextPosition := 1, Length := (text.length : Int),
            AudioPosition := 0, Number := 1, Name := "", Phoneme := "" }])
  voices := []
  sampleRate := 22050

/-- A concrete engine whose rate push always fails. -/
def rateFailEngine : Engine :=
  { noErrEngine with setRateErr := fun _ => some { Code := 1, Message := "rate rejected" } }

/-- A concrete engine whose volume push always fails. -/
def volFailEngine : Engine :=
  { noErrEngine with setVolumeErr := fun _ => some { Code := 2, Message := "volume rejected" } }

/-- A concrete engine whose voice-selection call rejects every query. -/
def voiceRejectEngine : Engine :=
  { noErrEngine with setVoiceErr := fun _ => some { Code := 7, Message := "no matching voice" } }

/-- `eventSize` (generated layout-constants file, `0x24`): the fixed byte
size of one engine event record. -/
def eventSize : Nat := 36

/-- `eventTypeOffset` (`0x0`): byte offset of the type tag. -/
def eventTypeOffset : Nat := 0

/-- `eventTextPositionOffset` (`0x8`). -/
def eventTextPositionOffset : Nat := 8

/-- `eventLengthOffset` (`0xc`). -/
def eventLengthOffset : Nat := 12

/-- `eventAudioPositionOffset` (`0x10`). -/
def eventAudioPositionOffset : Nat := 16

/-- `eventNumberOffset` (`0x1c`): the union region, shared with
`eventNameOffset` and `eventStringOffset`. -/
def eventNumberOffset : Nat := 28

/-- `eventNameOffset` (`0x1c`). -/
def eventNameOffset : Nat := 28

/-- `eventStringOffset` (`0x1c`). -/
def eventStringOffset : Nat := 28

/-- `espeakEVENT_LIST_TERMINATED` (`0x0`): the sentinel type tag ending a
record batch. -/
def espeakEVENT_LIST_TERMINATED : Nat := 0

/-- Little-endian unsigned 32-bit read at byte offset `off` of `bs`
(out-of-range bytes read as 0). -/
def readLE32 (bs : List Nat) (off : Nat) : Nat :=
  bs.getD off 0 + 256 * bs.getD (off + 1) 0 + 65536 * bs.getD (off + 2) 0 +
    16777216 * bs.getD (off + 3) 0

/-- The signed (two's-complement) value of a little-endian 32-bit field, as
a C `int` is read. -/
def readLE32s (bs : List Nat) (off : Nat) : Int :=
  if readLE32 bs off < 2147483648 then (readLE32 bs off : Int)
  else (readLE32 bs off : Int) - 4294967296

/-- Modelled from the spec: the fixed scale factor converting the engine's
native audio-position time unit (milliseconds in the espeak C API) to the
nanoseconds of a Go `time.Duration`.  The spec leaves the exact factor an
open question; no property proved here depends on its value. -/
def timeScale : Int := 1000000

/-- Maps a record's type tag (`espeakEVENT_WORD` `0x1` through
`espeakEVENT_PHONEME` `0x7`) to the `SynthEventType` it denotes. -/
def decodeType : Nat → Option SynthEventType
  | 1 => some .EventWord
  | 2 => some .EventSentence
  | 3 => some .EventMark
  | 4 => some .EventPlay
  | 5 => some .EventEnd
  | 6 => some .EventMsgTerminated
  | 7 => some .EventPhoneme
  | _ => none

/-- The short embedded string in the 8-byte union region at
`eventStringOffset`: bytes up to the first NUL, as characters. -/
def decodeUnionString (bs : List Nat) : String :=
  String.mk ((((bs.drop eventStringOffset).take 8).takeWhile (fun b => b != 0)).map Char.ofNat)

/-- Modelled from the spec: decoding of one fixed-layout event record (the
record-by-record parser is platform code absent from the sources; the field
offsets are those of the generated layout-constants file and the relevance
of each field to each type follows the `SynthEvent` doc comments).  The
scalar fields are read at their fixed offsets; the union region is
interpreted as an integer for Word/Sentence and as a short embedded string
for Mark/Play and for Phoneme; union interpretations not selected by the
tag are left zero-valued. -/
def decodeEventRecord (bs : List Nat) (ty : SynthEventType) : SynthEvent :=
  { type := ty
    TextPosition := readLE32s bs eventTextPositionOffset
    Length := readLE32s bs eventLengthOffset
    AudioPosition := timeScale * readLE32s bs eventAudioPositionOffset
    Number := if ty = .EventWord ∨ ty = .EventSentence then readLE32s bs eventNumberOffset else 0
    Name := if ty = .EventMark ∨ ty = .EventPlay then decodeUnionString bs else ""
    Phoneme := if ty = .EventPhoneme then decodeUnionString bs else "" }

/-- Fuel-bounded record-by-record decoding: stops on the sentinel
`espeakEVENT_LIST_TERMINATED` type tag (an empty chunk also reads as the
sentinel), otherwise decodes one `eventSize`-byte record and continues on
the rest of the chunk; a nonzero tag outside the seven event types decodes
no record. -/
def decodeGo : Nat → List Nat → List SynthEvent
  | 0, _ => []
  | fuel + 1, bs =>
    if readLE32 bs eventTypeOffset = espeakEVENT_LIST_TERMINATED then []
    else
      match decodeType (readLE32 bs eventTypeOffset) with
      | some ty => decodeEventRecord bs ty :: decodeGo fuel (bs.drop eventSize)
      | none => decodeGo fuel (bs.drop eventSize)

/-- Modelled from the spec: the Event Decoder over one callback chunk.
`bs.length` is enough fuel because every decoded record consumes
`eventSize` bytes. -/
def decodeEvents (bs : List Nat) : List SynthEvent :=
  decodeGo bs.length bs

/-- The event a single well-formed record decodes to (its tag selects the
type; the `.getD` default is never reached on a well-formed record). -/
def decodeRecord (r : List Nat) : SynthEvent :=
  decodeEventRecord r ((decodeType (readLE32 r eventTypeOffset)).getD .EventWord)

/-- A well-formed fixed-layout event record: exactly `eventSize` bytes, all
byte-valued, a type tag naming one of the seven event types, and a zero
length field unless the record is a word event (the length field is relevant
only to `EventWord`). -/
def WellFormedRecord (r : List Nat) : Prop :=
  r.length = eventSize ∧ (∀ b ∈ r, b < 256) ∧
  1 ≤ readLE32 r eventTypeOffset ∧ readLE32 r eventTypeOffset ≤ 7 ∧
  (readLE32 r eventTypeOffset ≠ 1 → readLE32 r eventLengthOffset = 0)

instance (r : List Nat) : Decidable (WellFormedRecord r) := by
  unfold WellFormedRecord
  infer_instance

/-- Every field outside the subset relevant to the event's type is
zero-valued: length only for Word, number only for Word/Sentence, name only
for Mark/Play, phoneme only for Phoneme. -/
def onlyRelevantFields (e : SynthEvent) : Prop :=
  (e.type ≠ .EventWord → e.Length = 0) ∧
  (e.type ≠ .EventWord ∧ e.type ≠ .EventSentence → e.Number = 0) ∧
  (e.type ≠ .EventMark ∧ e.type ≠ .EventPlay → e.Name = "") ∧
  (e.type ≠ .EventPhoneme → e.Phoneme = "")

/-- A concrete well-formed word-event record: tag 1, text position 1,
length 5, audio position 100, number 1. -/
def wordRec : List Nat :=
  [1, 0, 0, 0, 0, 0, 0, 0, 1, 0, 0, 0, 5, 0, 0, 0, 100, 0, 0, 0,
   0, 0, 0, 0, 0, 0, 0, 0, 1, 0, 0, 0, 0, 0, 0, 0]

/-- A concrete well-formed mark-event record: tag 3, text position 7,
audio position 200, embedded name "ok". -/
def markRec : List Nat :=
  [3, 0, 0, 0, 0, 0, 0, 0, 7, 0, 0, 0, 0, 0, 0, 0, 200, 0, 0, 0,
   0, 0, 0, 0, 0, 0, 0, 0, 111, 107, 0, 0, 0, 0, 0, 0]

/-- A concrete sentinel record: 36 zero bytes (type tag
`espeakEVENT_LIST_TERMINATED`). -/
def termRec : List Nat := List.replicate 36 0

/-- True when every action in the list is an engine call (no lock action). -/
def callsOnly : List TraceAction → Bool
  | [] => true
  | .call _ :: rest => callsOnly rest
  | .lockAcq :: _ => false
  | .lockRel :: _ => false

/-- An operation's trace holds the process-wide lock for its whole duration:
it acquires the lock first, performs engine calls only, and releases the
lock as its last action. -/
def lockBracketed (tr : List TraceAction) : Bool :=
  match tr with
  | .lockAcq :: rest =>
    match rest.getLast? with
    | some .lockRel => callsOnly rest.dropLast
    | _ => false
  | _ => false

/-- Tags every action of a thread's trace with that thread's identifier. -/
def tagThread (t : Bool) (tr : List TraceAction) : List (Bool × TraceAction) :=
  tr.map (fun a => (t, a))

/-- `Interleave xs ys zs`: the schedule `zs` is an order-preserving
interleaving of the two threads' action lists `xs` and `ys`. -/
inductive Interleave : List (Bool × TraceAction) → List (Bool × TraceAction) →
    List (Bool × TraceAction) → Prop where
  | nil : Interleave [] [] []
  | left (x : Bool × TraceAction) (xs ys zs : List (Bool × TraceAction)) :
      Interleave xs ys zs → Interleave (x :: xs) ys (x :: zs)
  | right (y : Bool × TraceAction) (xs ys zs : List (Bool × TraceAction)) :
      Interleave xs ys zs → Interleave xs (y :: ys) (y :: zs)

/-- Validity of a merged schedule for the single process-wide lock, starting
from lock state `held`: the lock is acquired only when free and released
only when held (blocking acquisition means an acquire cannot be scheduled
while the lock is held). -/
def lockValid : Bool → List (Bool × TraceAction) → Bool
  | _, [] => true
  | held, (_, .lockAcq) :: rest => !held && lockValid true rest
  | held, (_, .lockRel) :: rest => held && lockValid false rest
  | held, (_, .call _) :: rest => lockValid held rest

theorem init_of_isInit (ctx : Context) (h : ctx.isInit = true) : ctx.init = ctx := by
  simp [Context.init, h]

theorem isInit_init (ctx : Context) : (ctx.init).isInit = true := by
  by_cases h : ctx.isInit = true <;> simp [Context.init, h]

theorem SetRate_in_bounds (ctx : Context) (wpm : Int) (h1 : 80 ≤ wpm) (h2 : wpm ≤ 450) :
    ctx.SetRate wpm = ({ ctx.init with rate := wpm }, none) := by
  unfold Context.SetRate
  rw [if_neg (by omega)]

theorem SetVolume_in_bounds (ctx : Context) (volume : Int) (h : 0 ≤ volume) :
    ctx.SetVolume volume = ({ ctx.init with volume := volume }, none) := by
  unfold Context.SetVolume
  rw [if_neg (by omega)]

theorem SetPitch_in_bounds (ctx : Context) (pitch : Int) (h1 : 0 ≤ pitch) (h2 : pitch ≤ 100) :
    ctx.SetPitch pitch = ({ ctx.init with pitch := pitch }, none) := by
  unfold Context.SetPitch
  rw [if_neg (by omega)]

theorem SetRange_in_bounds (ctx : Context) (tone : Int) (h1 : 0 ≤ tone) (h2 : tone ≤ 100) :
    ctx.SetRange tone = ({ ctx.init with tone := tone }, none) := by
  unfold Context.SetRange
  rw [if_neg (by omega)]

/-- C4: on the zero-valued `Context`, before any setter, `Rate` returns 175,
`Volume` returns 100, `Pitch` returns 50 and `Range` returns 50. -/
theorem zero_context_defaults :
    (zeroContext.Rate).1 = 175 ∧ (zeroContext.Volume).1 = 100 ∧
    (zeroContext.Pitch).1 = 50 ∧ (zeroContext.Range).1 = 50 := by
  decide

/-- C5: for every `Context` and every value within the documented bounds
(rate in [80,450], volume ≥ 0, pitch in [0,100], range in [0,100]), calling
the corresponding setter and then the corresponding getter returns exactly
the value that was set. -/
theorem set_then_get_roundtrip (ctx : Context) (wpm volume pitch tone : Int)
    (h1 : 80 ≤ wpm) (h2 : wpm ≤ 450) (h3 : 0 ≤ volume)
    (h4 : 0 ≤ pitch) (h5 : pitch ≤ 100) (h6 : 0 ≤ tone) (h7 : tone ≤ 100) :
    (((ctx.SetRate wpm).1).Rate).1 = wpm ∧
    (((ctx.SetVolume volume).1).Volume).1 = volume ∧
    (((ctx.SetPitch pitch).1).Pitch).1 = pitch ∧
    (((ctx.SetRange tone).1).Range).1 = tone := by
  rw [SetRate_in_bounds ctx wpm h1 h2, SetVolume_in_bounds ctx volume h3,
      SetPitch_in_bounds ctx pitch h4 h5, SetRange_in_bounds ctx tone h6 h7]
  refine ⟨?_, ?_, ?_, ?_⟩
  · have hx := init_of_isInit { ctx.init with rate := wpm } (isInit_init ctx)
    simp [Context.Rate, hx]
  · have hx := init_of_isInit { ctx.init with volume := volume } (isInit_init ctx)
    simp [Context.Volume, hx]
  · have hx := init_of_isInit { ctx.init with pitch := pitch } (isInit_init ctx)
    simp [Context.Pitch, hx]
  · have hx := init_of_isInit { ctx.init with tone := tone } (isInit_init ctx)
    simp [Context.Range, hx]

/-- Witness for C5 at rate 200, volume 150, pitch 30, range 70 on the zero
Context. -/
theorem set_then_get_roundtrip_witness :
    (((zeroContext.SetRate 200).1).Rate).1 = 200 ∧
    (((zeroContext.SetVolume 150).1).Volume).1 = 150 ∧
    (((zeroContext.SetPitch 30).1).Pitch).1 = 30 ∧
    (((zeroContext.SetRange 70).1).Range).1 = 70 :=
  set_then_get_roundtrip zeroContext 200 150 30 70 (by decide) (by decide)
    (by decide) (by decide) (by decide) (by decide) (by decide)

/-- C6: for every `Context` and every value outside the documented bounds,
the corresponding setter panics with its invalid-argument message and the
`Context`'s entire state — all four numeric parameters, the initialized
flag, the voice query, `Samples` and `Events` — is exactly what it was
before the call (the returned state is the untouched receiver). -/
theorem setters_reject_out_of_bounds (ctx : Context) (wpm volume pitch tone : Int)
    (hr : wpm < 80 ∨ wpm > 450) (hv : volume < 0)
    (hp : pitch < 0 ∨ pitch > 100) (ht : tone < 0 ∨ tone > 100) :
    ctx.SetRate wpm =
      (ctx, some "espeak: Context.SetRate: wpm must be between 80 and 450") ∧
    ctx.SetVolume volume =
      (ctx, some "espeak: Context.SetVolume: percentage must not be negative") ∧
    ctx.SetPitch pitch =
      (ctx, some "espeak: Context.SetPitch: pitch must be between 0 and 100") ∧
    ctx.SetRange tone =
      (ctx, some "espeak: Context.SetRange: tone must be between 0 and 100") := by
  refine ⟨?_, ?_, ?_, ?_⟩
  · unfold Context.SetRate
    rw [if_pos hr]
  · unfold Context.SetVolume
    rw [if_pos hv]
  · unfold Context.SetPitch
    rw [if_pos hp]
  · unfold Context.SetRange
    rw [if_pos ht]

/-- Witness for C6 at rate 79, volume -1, pitch 101, range -5 on the zero
Context. -/
theorem setters_reject_out_of_bounds_witness :
    zeroContext.SetRate 79 =
      (zeroContext, some "espeak: Context.SetRate: wpm must be between 80 and 450") ∧
    zeroContext.SetVolume (-1) =
      (zeroContext, some "espeak: Context.SetVolume: percentage must not be negative") ∧
    zeroContext.SetPitch 101 =
      (zeroContext, some "espeak: Context.SetPitch: pitch must be between 0 and 100") ∧
    zeroContext.SetRange (-5) =
      (zeroContext, some "espeak: Context.SetRange: tone must be between 0 and 100") :=
  setters_reject_out_of_bounds zeroContext 79 (-1) 101 (-5)
    (by decide) (by decide) (by decide) (by decide)

/-- C10: on an already-initialized `Context`, each in-bounds setter modifies
only its own parameter field: the result is the input `Context` with exactly
that one field replaced (so the other three numeric parameters, the voice
query, `Samples` and `Events` are unchanged). -/
theorem setters_frame_effect (ctx : Context) (wpm volume pitch tone : Int)
    (hinit : ctx.isInit = true)
    (h1 : 80 ≤ wpm) (h2 : wpm ≤ 450) (h3 : 0 ≤ volume)
    (h4 : 0 ≤ pitch) (h5 : pitch ≤ 100) (h6 : 0 ≤ tone) (h7 : tone ≤ 100) :
    (ctx.SetRate wpm).1 = { ctx with rate := wpm } ∧
    (ctx.SetVolume volume).1 = { ctx with volume := volume } ∧
    (ctx.SetPitch pitch).1 = { ctx with pitch := pitch } ∧
    (ctx.SetRange tone).1 = { ctx with tone := tone } := by
  rw [SetRate_in_bounds ctx wpm h1 h2, SetVolume_in_bounds ctx volume h3,
      SetPitch_in_bounds ctx pitch h4 h5, SetRange_in_bounds ctx tone h6 h7,
      init_of_isInit ctx hinit]
  exact ⟨rfl, rfl, rfl, rfl⟩

/-- Witness for C10 on an initialized Context with distinctive field values. -/
theorem setters_frame_effect_witness :
    (initCtxW.SetRate 200).1 = { initCtxW with rate := 200 } ∧
    (initCtxW.SetVolume 150).1 = { initCtxW with volume := 150 } ∧
    (initCtxW.SetPitch 30).1 = { initCtxW with pitch := 30 } ∧
    (initCtxW.SetRange 70).1 = { initCtxW with tone := 70 } :=
  setters_frame_effect initCtxW 200 150 30 70 rfl (by decide) (by decide)
    (by decide) (by decide) (by decide) (by decide) (by decide)

theorem synthesize_rate_err (eng : Engine) (ctx : Context) (text : String) (e : Error)
    (h0 : eng.setRateErr ctx.rate = some e) :
    Context.synthesize eng ctx text =
      (ctx, .err e.Code e.Message,
       .lockAcq :: ((fullCallList ctx text).take 1).map TraceAction.call ++ [.lockRel]) := by
  unfold Context.synthesize
  rw [h0]
  rfl

theorem synthesize_volume_err (eng : Engine) (ctx : Context) (text : String) (e : Error)
    (h0 : eng.setRateErr ctx.rate = none)
    (h1 : eng.setVolumeErr ctx.volume = some e) :
    Context.synthesize eng ctx text =
      (ctx, .err e.Code e.Message,
       .lockAcq :: ((fullCallList ctx text).take 2).map TraceAction.call ++ [.lockRel]) := by
  unfold Context.synthesize
  rw [h0, h1]
  rfl

theorem synthesize_pitch_err (eng : Engine) (ctx : Context) (text : String) (e : Error)
    (h0 : eng.setRateErr ctx.rate = none)
    (h1 : eng.setVolumeErr ctx.volume = none)
    (h2 : eng.setPitchErr ctx.pitch = some e) :
    Context.synthesize eng ctx text =
      (ctx, .err e.Code e.Message,
       .lockAcq :: ((fullCallList ctx text).take 3).map TraceAction.call ++ [.lockRel]) := by
  unfold Context.synthesize
  rw [h0, h1, h2]
  rfl

theorem synthesize_tone_err (eng : Engine) (ctx : Context) (text : String) (e : Error)
    (h0 : eng.setRateErr ctx.rate = none)
    (h1 : eng.setVolumeErr ctx.volume = none)
    (h2 : eng.setPitchErr ctx.pitch = none)
    (h3 : eng.setToneErr ctx.tone = some e) :
    Context.synthesize eng ctx text =
      (ctx, .err e.Code e.Message,
       .lockAcq :: ((fullCallList ctx text).take 4).map TraceAction.call ++ [.lockRel]) := by
  unfold Context.synthesize
  rw [h0, h1, h2, h3]
  rfl

theorem synthesize_voice_err (eng : Engine) (ctx : Context) (text : String) (e : Error)
    (h0 : eng.setRateErr ctx.rate = none)
    (h1 : eng.setVolumeErr ctx.volume = none)
    (h2 : eng.setPitchErr ctx.pitch = none)
    (h3 : eng.setToneErr ctx.tone = none)
    (h4 : eng.setVoiceErr ctx.voice = some e) :
    Context.synthesize eng ctx text =
      (ctx, .err e.Code e.Message,
       .lockAcq :: ((fullCallList ctx text).take 5).map TraceAction.call ++ [.lockRel]) := by
  unfold Context.synthesize
  rw [h0, h1, h2, h3, h4]
  rfl

theorem synthesize_synth_err (eng : Engine) (ctx : Context) (text : String) (e : Error)
    (h0 : eng.setRateErr ctx.rate = none)
    (h1 : eng.setVolumeErr ctx.volume = none)
    (h2 : eng.setPitchErr ctx.pitch = none)
    (h3 : eng.setToneErr ctx.tone = none)
    (h4 : eng.setVoiceErr ctx.voice = none)
    (h5 : eng.synthResult text = .error e) :
    Context.synthesize eng ctx text =
      (ctx, .err e.Code e.Message,
       .lockAcq :: ((fullCallList ctx text).take 6).map TraceAction.call ++ [.lockRel]) := by
  unfold Context.synthesize
  rw [h0, h1, h2, h3, h4, h5]
  rfl

theorem synthesize_synth_ok (eng : Engine) (ctx : Context) (text : String)
    (out : List Int × List SynthEvent)
    (h0 : eng.setRateErr ctx.rate = none)
    (h1 : eng.setVolumeErr ctx.volume = none)
    (h2 : eng.setPitchErr ctx.pitch = none)
    (h3 : eng.setToneErr ctx.tone = none)
    (h4 : eng.setVoiceErr ctx.voice = none)
    (h5 : eng.synthResult text = .ok out) :
    Context.synthesize eng ctx text =
      ({ ctx with Samples := out.1, Events := out.2 }, .ok,
       .lockAcq :: ((fullCallList ctx text).take 6).map TraceAction.call ++ [.lockRel]) := by
  unfold Context.synthesize
  rw [h0, h1, h2, h3, h4, h5]
  rfl

/-- C1 (amended: the unchanged-fields guarantee holds for an
already-initialized `Context`; a fresh `Context` is first lazily initialized
to the defaults before any push, so its stored fields end at the defaults,
not at their pre-call zero values): for every initialized `Context`,
`SynthesizeText` pushes rate, volume, pitch, range, and the voice query in
exactly that order (the trace is the lock-bracketed image of a prefix of the
canonical call list), returns the first engine error if any push fails —
skipping all later pushes and the synthesis call — and in that failure case
returns the `Context` completely unchanged. -/
theorem SynthesizeText_push_order (eng : Engine) (ctx : Context) (text : String)
    (hinit : ctx.isInit = true) :
    (∃ k, (ctx.SynthesizeText eng text).2.2 =
        .lockAcq :: ((fullCallList ctx text).take k).map TraceAction.call ++ [.lockRel]) ∧
    (∀ e, eng.setRateErr ctx.rate = some e →
        ctx.SynthesizeText eng text =
          (ctx, .err e.Code e.Message,
           .lockAcq :: ((fullCallList ctx text).take 1).map TraceAction.call ++ [.lockRel])) ∧
    (∀ e, eng.setRateErr ctx.rate = none → eng.setVolumeErr ctx.volume = some e →
        ctx.SynthesizeText eng text =
          (ctx, .err e.Code e.Message,
           .lockAcq :: ((fullCallList ctx text).take 2).map TraceAction.call ++ [.lockRel])) ∧
    (∀ e, eng.setRateErr ctx.rate = none → eng.setVolumeErr ctx.volume = none →
        eng.setPitchErr ctx.pitch = some e →
        ctx.SynthesizeText eng text =
          (ctx, .err e.Code e.Message,
           .lockAcq :: ((fullCallList ctx text).take 3).map TraceAction.call ++ [.lockRel])) ∧
    (∀ e, eng.setRateErr ctx.rate = none → eng.setVolumeErr ctx.volume = none →
        eng.setPitchErr ctx.pitch = none → eng.setToneErr ctx.tone = some e →
        ctx.SynthesizeText eng text =
          (ctx, .err e.Code e.Message,
           .lockAcq :: ((fullCallList ctx text).take 4).map TraceAction.call ++ [.lockRel])) ∧
    (∀ e, eng.setRateErr ctx.rate = none → eng.setVolumeErr ctx.volume = none →
        eng.setPitchErr ctx.pitch = none → eng.setToneErr ctx.tone = none →
        eng.setVoiceErr ctx.voice = some e →
        ctx.SynthesizeText eng text =
          (ctx, .err e.Code e.Message,
           .lockAcq :: ((fullCallList ctx text).take 5).map TraceAction.call ++ [.lockRel])) := by
  have hst : ctx.SynthesizeText eng text = Context.synthesize eng ctx text := by
    unfold Context.SynthesizeText
    rw [init_of_isInit ctx hinit]
  refine ⟨?_, ?_, ?_, ?_, ?_, ?_⟩
  · rw [hst]
    rcases h0 : eng.setRateErr ctx.rate with _ | e
    · rcases h1 : eng.setVolumeErr ctx.volume with _ | e
      · rcases h2 : eng.setPitchErr ctx.pitch with _ | e
        · rcases h3 : eng.setToneErr ctx.tone with _ | e
          · rcases h4 : eng.setVoiceErr ctx.voice with _ | e
            · rcases h5 : eng.synthResult text with e | out
              · exact ⟨6, by rw [synthesize_synth_err eng ctx text e h0 h1 h2 h3 h4 h5]⟩
              · exact ⟨6, by rw [synthesize_synth_ok eng ctx text out h0 h1 h2 h3 h4 h5]⟩
            · exact ⟨5, by rw [synthesize_voice_err eng ctx text e h0 h1 h2 h3 h4]⟩
          · exact ⟨4, by rw [synthesize_tone_err eng ctx text e h0 h1 h2 h3]⟩
        · exact ⟨3, by rw [synthesize_pitch_err eng ctx text e h0 h1 h2]⟩
      · exact ⟨2, by rw [synthesize_volume_err eng ctx text e h0 h1]⟩
    · exact ⟨1, by rw [synthesize_rate_err eng ctx text e h0]⟩
  · intro e h0
    rw [hst, synthesize_rate_err eng ctx text e h0]
  · intro e h0 h1
    rw [hst, synthesize_volume_err eng ctx text e h0 h1]
  · intro e h0 h1 h2
    rw [hst, synthesize_pitch_err eng ctx text e h0 h1 h2]
  · intro e h0 h1 h2 h3
    rw [hst, synthesize_tone_err eng ctx text e h0 h1 h2 h3]
  · intro e h0 h1 h2 h3 h4
    rw [hst, synthesize_voice_err eng ctx text e h0 h1 h2 h3 h4]

/-- Witness for C1: on a concrete engine whose volume push fails, the rate
push happens, the volume failure is returned, later pushes and the synthesis
call are skipped, and the Context is returned unchanged. -/
theorem SynthesizeText_push_order_witness :
    initCtxW.SynthesizeText volFailEngine "hi" =
      (initCtxW, .err 2 "volume rejected",
       .lockAcq :: ((fullCallList initCtxW "hi").take 2).map TraceAction.call ++ [.lockRel]) :=
  (SynthesizeText_push_order volFailEngine initCtxW "hi" rfl).2.2.1
    { Code := 2, Message := "volume rejected" } rfl rfl

/-- C1 counterexample: the claim quantifies over every `Context`, but on the
zero-valued `Context` a failed rate push does not leave the stored rate field
unchanged — lazy initialization inside `SynthesizeText` has already moved it
from 0 to the default 175 before the push. -/
theorem SynthesizeText_fresh_ctx_rate_changed :
    (zeroContext.SynthesizeText rateFailEngine "x").2.1 = .err 1 "rate rejected" ∧
    zeroContext.rate = 0 ∧
    (zeroContext.SynthesizeText rateFailEngine "x").1.rate = 175 := by
  decide

/-- C3: `SetVoiceProperties` succeeds iff the engine voice-selection call
accepts the query; on failure it returns the engine's error and the entire
`Context` is returned untouched; on success the five voice fields are stored
(after lazy initialization). -/
theorem SetVoiceProperties_spec (eng : Engine) (ctx : Context)
    (name language : String) (gender : Gender) (age variant : Nat) :
    ((ctx.SetVoiceProperties eng name language gender age variant).2.1 = .ok ↔
      eng.setVoiceErr { name := name, language := language, gender := gender,
                        age := age, variant := variant } = none) ∧
    (∀ e, eng.setVoiceErr { name := name, language := language, gender := gender,
                            age := age, variant := variant } = some e →
      ctx.SetVoiceProperties eng name language gender age variant =
        (ctx, .err e.Code e.Message,
         [.lockAcq, .call (.setVoice name language gender age variant), .lockRel])) ∧
    (eng.setVoiceErr { name := name, language := language, gender := gender,
                       age := age, variant := variant } = none →
      ctx.SetVoiceProperties eng name language gender age variant =
        ({ ctx.init with voice := { name := name, language := language, gender := gender,
                                    age := age, variant := variant } }, .ok,
         [.lockAcq, .call (.setVoice name language gender age variant), .lockRel])) := by
  refine ⟨?_, ?_, ?_⟩
  · rcases h : eng.setVoiceErr { name := name, language := language, gender := gender,
                                 age := age, variant := variant } with _ | e
    · simp [Context.SetVoiceProperties, validVoice, h]
    · simp [Context.SetVoiceProperties, validVoice, h]
  · intro e he
    simp [Context.SetVoiceProperties, validVoice, he]
  · intro hn
    simp [Context.SetVoiceProperties, validVoice, hn]

/-- Witness for C3: a concrete engine that rejects every voice query makes
`SetVoiceProperties` fail with that error and return the Context untouched. -/
theorem SetVoiceProperties_spec_witness :
    initCtxW.SetVoiceProperties voiceRejectEngine "does-not-exist" "" .Unknown 0 0 =
      (initCtxW, .err 7 "no matching voice",
       [.lockAcq, .call (.setVoice "does-not-exist" "" .Unknown 0 0), .lockRel]) :=
  (SetVoiceProperties_spec voiceRejectEngine initCtxW "does-not-exist" "" .Unknown 0 0).2.1
    { Code := 7, Message := "no matching voice" } rfl

/-- C7: each `SynthesizeText` call replaces `Samples` and `Events`: after a
second successful call they hold exactly the second utterance's output, not
the concatenation with the first call's output. -/
theorem SynthesizeText_replaces (eng : Engine) (ctx : Context) (t1 t2 : String)
    (s2 : List Int) (ev2 : List SynthEvent)
    (h2 : eng.synthResult t2 = .ok (s2, ev2))
    (hok : ((ctx.SynthesizeText eng t1).1.SynthesizeText eng t2).2.1 = .ok) :
    ((ctx.SynthesizeText eng t1).1.SynthesizeText eng t2).1.Samples = s2 ∧
    ((ctx.SynthesizeText eng t1).1.SynthesizeText eng t2).1.Events = ev2 := by
  set mid := (ctx.SynthesizeText eng t1).1 with hmid
  have hst : mid.SynthesizeText eng t2 = Context.synthesize eng mid.init t2 := rfl
  rw [hst] at hok ⊢
  rcases h0 : eng.setRateErr mid.init.rate with _ | e
  · rcases h1 : eng.setVolumeErr mid.init.volume with _ | e
    · rcases h2p : eng.setPitchErr mid.init.pitch with _ | e
      · rcases h3 : eng.setToneErr mid.init.tone with _ | e
        · rcases h4 : eng.setVoiceErr mid.init.voice with _ | e
          · rw [synthesize_synth_ok eng mid.init t2 (s2, ev2) h0 h1 h2p h3 h4 h2]
            exact ⟨rfl, rfl⟩
          · rw [synthesize_voice_err eng mid.init t2 e h0 h1 h2p h3 h4] at hok
            exact absurd hok (by simp)
        · rw [synthesize_tone_err eng mid.init t2 e h0 h1 h2p h3] at hok
          exact absurd hok (by simp)
      · rw [synthesize_pitch_err eng mid.init t2 e h0 h1 h2p] at hok
        exact absurd hok (by simp)
    · rw [synthesize_volume_err eng mid.init t2 e h0 h1] at hok
      exact absurd hok (by simp)
  · rw [synthesize_rate_err eng mid.init t2 e h0] at hok
    exact absurd hok (by simp)

/-- Witness for C7: two successive calls on concrete inputs leave exactly the
second utterance's one-sample output and single word event. -/
theorem SynthesizeText_replaces_witness :
    ((zeroContext.SynthesizeText noErrEngine "ab").1.SynthesizeText noErrEngine "wxyz").1.Samples
      = [4] ∧
    ((zeroContext.SynthesizeText noErrEngine "ab").1.SynthesizeText noErrEngine "wxyz").1.Events
      = [{ type := .EventWord, TextPosition := 1, Length := 4,
           AudioPosition := 0, Number := 1, Name := "", Phoneme := "" }] :=
  SynthesizeText_replaces noErrEngine zeroContext "ab" "wxyz" [4]
    [{ type := .EventWord, TextPosition := 1, Length := 4,
       AudioPosition := 0, Number := 1, Name := "", Phoneme := "" }]
    rfl (by decide)

/-- C8 counterexample: on the zero Context (with an engine available), the
code answers `SetVoice("")` with an ordinary recoverable error value — the
Go `errors.New("espeak: missing name in SetVoice")` return — and not with an
unrecoverable fault, contradicting the claim's fail-fast requirement. -/
theorem SetVoice_empty_is_ordinary_error :
    (zeroContext.SetVoice noErrEngine "").2.1 =
      .basicErr "espeak: missing name in SetVoice" ∧
    ((zeroContext.SetVoice noErrEngine "").2.1).isFault = false := by
  decide

/-- C8 (amended: the failure is an ordinary recoverable error return, not an
unrecoverable fault): for every `Context` and engine, `SetVoice` with an
empty name returns the fixed error value, performs no engine call at all
(empty trace), and returns the `Context` unchanged; the outcome is not a
fault. -/
theorem SetVoice_empty_name_spec (eng : Engine) (ctx : Context) :
    ctx.SetVoice eng "" =
      (ctx, .basicErr "espeak: missing name in SetVoice", []) ∧
    ((ctx.SetVoice eng "").2.1).isFault = false := by
  constructor
  · unfold Context.SetVoice
    rw [if_pos rfl]
  · unfold Context.SetVoice
    rw [if_pos rfl]
    rfl

theorem decodeGo_sentinel (f : Nat) (bs : List Nat)
    (h : readLE32 bs eventTypeOffset = espeakEVENT_LIST_TERMINATED) :
    decodeGo f bs = [] := by
  cases f with
  | zero => rfl
  | succ f => simp [decodeGo, h]

theorem readLE32_nil (off : Nat) : readLE32 [] off = 0 := by
  simp [readLE32, List.getD_nil]

theorem decodeGo_fuel : ∀ (f f' : Nat) (bs : List Nat), bs.length ≤ f → bs.length ≤ f' →
    decodeGo f bs = decodeGo f' bs := by
  intro f
  induction f with
  | zero =>
    intro f' bs hf hf'
    have hb : bs = [] := List.eq_nil_of_length_eq_zero (Nat.le_zero.mp hf)
    subst hb
    rw [decodeGo_sentinel f' [] (readLE32_nil eventTypeOffset)]
    rfl
  | succ f ih =>
    intro f' bs hf hf'
    by_cases h0 : readLE32 bs eventTypeOffset = espeakEVENT_LIST_TERMINATED
    · rw [decodeGo_sentinel _ _ h0, decodeGo_sentinel _ _ h0]
    · have hne : bs ≠ [] := by
        intro hb
        subst hb
        exact h0 (readLE32_nil eventTypeOffset)
      have hpos : 0 < bs.length := List.length_pos.mpr hne
      cases f' with
      | zero => omega
      | succ f' =>
        have he : eventSize = 36 := rfl
        have hd : (bs.drop eventSize).length ≤ f := by
          rw [List.length_drop]
          omega
        have hd' : (bs.drop eventSize).length ≤ f' := by
          rw [List.length_drop]
          omega
        simp only [decodeGo, if_neg h0]
        rw [ih f' (bs.drop eventSize) hd hd']

theorem readLE32_append (r t : List Nat) (off : Nat) (h : off + 3 < r.length) :
    readLE32 (r ++ t) off = readLE32 r off := by
  unfold readLE32
  rw [List.getD_append _ _ _ _ (by omega), List.getD_append _ _ _ _ (by omega),
      List.getD_append _ _ _ _ (by omega), List.getD_append _ _ _ _ (by omega)]

theorem readLE32s_append (r t : List Nat) (off : Nat) (h : off + 3 < r.length) :
    readLE32s (r ++ t) off = readLE32s r off := by
  unfold readLE32s
  rw [readLE32_append r t off h]

theorem decodeUnionString_append (r t : List Nat) (h : r.length = eventSize) :
    decodeUnionString (r ++ t) = decodeUnionString r := by
  unfold decodeUnionString
  have h1 : (r ++ t).drop eventStringOffset = r.drop eventStringOffset ++ t :=
    List.drop_append_of_le_length (by rw [h]; decide)
  have h2 : (r.drop eventStringOffset).length = 8 := by
    rw [List.length_drop, h]
    decide
  have h3 : (r.drop eventStringOffset ++ t).take 8 = r.drop eventStringOffset := by
    conv_lhs => rw [← h2]
    exact List.take_left _ _
  have h4 : (r.drop eventStringOffset).take 8 = r.drop eventStringOffset := by
    conv_lhs => rw [← h2]
    exact List.take_length _
  rw [h1, h3, h4]

theorem decodeEventRecord_append (r t : List Nat) (h : r.length = eventSize)
    (ty : SynthEventType) :
    decodeEventRecord (r ++ t) ty = decodeEventRecord r ty := by
  unfold decodeEventRecord
  rw [readLE32s_append r t eventTextPositionOffset (by rw [h]; decide),
      readLE32s_append r t eventLengthOffset (by rw [h]; decide),
      readLE32s_append r t eventAudioPositionOffset (by rw [h]; decide),
      readLE32s_append r t eventNumberOffset (by rw [h]; decide),
      decodeUnionString_append r t h]

theorem decodeType_some (tag : Nat) (h1 : 1 ≤ tag) (h2 : tag ≤ 7) :
    decodeType tag = some ((decodeType tag).getD .EventWord) := by
  interval_cases tag <;> rfl

theorem decodeEvents_cons (r tail : List Nat) (hr : WellFormedRecord r) :
    decodeEvents (r ++ tail) = decodeRecord r :: decodeEvents tail := by
  obtain ⟨hrlen, _, h1, h7, _⟩ := hr
  have htag : readLE32 (r ++ tail) eventTypeOffset = readLE32 r eventTypeOffset :=
    readLE32_append r tail eventTypeOffset (by rw [hrlen]; decide)
  have hne : ¬ readLE32 (r ++ tail) eventTypeOffset = espeakEVENT_LIST_TERMINATED := by
    rw [htag]
    have hz : espeakEVENT_LIST_TERMINATED = 0 := rfl
    omega
  have he : eventSize = 36 := rfl
  have hlen' : (r ++ tail).length = 36 + tail.length := by
    rw [List.length_append, hrlen, he]
  have hdrop : (r ++ tail).drop eventSize = tail := by
    rw [← hrlen]
    exact List.drop_left r tail
  have hn : (r ++ tail).length = (35 + tail.length) + 1 := by omega
  unfold decodeEvents
  rw [hn]
  simp only [decodeGo, if_neg hne]
  rw [htag, decodeType_some (readLE32 r eventTypeOffset) h1 h7, hdrop]
  show decodeEventRecord (r ++ tail) ((decodeType (readLE32 r eventTypeOffset)).getD .EventWord)
      :: decodeGo (35 + tail.length) tail =
    decodeRecord r :: decodeGo tail.length tail
  rw [decodeEventRecord_append r tail hrlen,
      decodeGo_fuel (35 + tail.length) tail.length tail (by omega) (le_refl _)]
  rfl

theorem decodeEvents_flatten (rs : List (List Nat)) (tail : List Nat)
    (hwf : ∀ r ∈ rs, WellFormedRecord r)
    (htail : readLE32 tail eventTypeOffset = espeakEVENT_LIST_TERMINATED) :
    decodeEvents (rs.flatten ++ tail) = rs.map decodeRecord := by
  induction rs with
  | nil => exact decodeGo_sentinel tail.length tail htail
  | cons r rs ih =>
    have hsplit : (r :: rs).flatten ++ tail = r ++ (rs.flatten ++ tail) := by
      simp [List.append_assoc]
    rw [hsplit, decodeEvents_cons r (rs.flatten ++ tail) (hwf r (by simp)),
        ih (fun x hx => hwf x (by simp [hx]))]
    rfl

theorem readLE32s_of_zero (r : List Nat) (off : Nat) (h : readLE32 r off = 0) :
    readLE32s r off = 0 := by
  simp [readLE32s, h]

theorem decodeRecord_onlyRelevant (r : List Nat) (h : WellFormedRecord r) :
    onlyRelevantFields (decodeRecord r) := by
  obtain ⟨hlen, hbytes, h1, h7, hlen0⟩ := h
  have h17 : readLE32 r eventTypeOffset = 1 ∨ readLE32 r eventTypeOffset = 2 ∨
      readLE32 r eventTypeOffset = 3 ∨ readLE32 r eventTypeOffset = 4 ∨
      readLE32 r eventTypeOffset = 5 ∨ readLE32 r eventTypeOffset = 6 ∨
      readLE32 r eventTypeOffset = 7 := by omega
  rcases h17 with h | h | h | h | h | h | h
  · simp [decodeRecord, decodeEventRecord, decodeType, onlyRelevantFields, h]
  all_goals
    have hL : readLE32s r eventLengthOffset = 0 :=
      readLE32s_of_zero r eventLengthOffset (hlen0 (by omega))
  all_goals
    simp [decodeRecord, decodeEventRecord, decodeType, onlyRelevantFields, h, hL]

/-- C2: for every byte stream of N well-formed fixed-layout event records
followed by one record whose type tag is the sentinel
`espeakEVENT_LIST_TERMINATED` (and then arbitrary further bytes, which are
not consumed), the decoder yields exactly the N decoded `SynthEvent`s in
stream order, and each decoded event has every field outside the subset
relevant to its type zero-valued. -/
theorem decoder_stream_exact (rs : List (List Nat)) (term rest : List Nat)
    (hwf : ∀ r ∈ rs, WellFormedRecord r)
    (hlen : term.length = eventSize)
    (hterm : readLE32 term eventTypeOffset = espeakEVENT_LIST_TERMINATED) :
    decodeEvents (rs.flatten ++ (term ++ rest)) = rs.map decodeRecord ∧
    ∀ e ∈ rs.map decodeRecord, onlyRelevantFields e := by
  have htail : readLE32 (term ++ rest) eventTypeOffset = espeakEVENT_LIST_TERMINATED := by
    rw [readLE32_append term rest eventTypeOffset (by rw [hlen]; decide)]
    exact hterm
  refine ⟨decodeEvents_flatten rs (term ++ rest) hwf htail, ?_⟩
  intro e he
  rw [List.mem_map] at he
  obtain ⟨r, hrmem, hre⟩ := he
  rw [← hre]
  exact decodeRecord_onlyRelevant r (hwf r hrmem)

/-- Witness for C2: a two-record stream (word then mark), a zero sentinel
record and trailing junk decode to exactly the two expected events. -/
theorem decoder_stream_exact_witness :
    decodeEvents ([wordRec, markRec].flatten ++ (termRec ++ [9, 9, 9])) =
      [{ type := .EventWord, TextPosition := 1, Length := 5, AudioPosition := 100000000,
         Number := 1, Name := "", Phoneme := "" },
       { type := .EventMark, TextPosition := 7, Length := 0, AudioPosition := 200000000,
         Number := 0, Name := "ok", Phoneme := "" }] :=
  ((decoder_stream_exact [wordRec, markRec] termRec [9, 9, 9]
      (by decide) (by decide) (by decide)).1).trans (by decide)

theorem tagThread_nil (t : Bool) : tagThread t [] = [] := rfl

theorem tagThread_cons (t : Bool) (a : TraceAction) (tr : List TraceAction) :
    tagThread t (a :: tr) = (t, a) :: tagThread t tr := rfl

theorem lockBracketed_elim (tr : List TraceAction) (h : lockBracketed tr = true) :
    ∃ body, tr = .lockAcq :: body ++ [.lockRel] ∧ callsOnly body = true := by
  match tr with
  | [] => exact absurd h (by simp [lockBracketed])
  | .lockRel :: rest => exact absurd h (by simp [lockBracketed])
  | .call c :: rest => exact absurd h (by simp [lockBracketed])
  | .lockAcq :: rest =>
    simp only [lockBracketed] at h
    cases hl : rest.getLast? with
    | none =>
      rw [hl] at h
      exact absurd h (by simp)
    | some a =>
      rw [hl] at h
      cases a with
      | lockAcq => exact absurd h (by simp)
      | call c => exact absurd h (by simp)
      | lockRel =>
        have hr : rest.dropLast ++ [TraceAction.lockRel] = rest :=
          List.dropLast_append_getLast? _ (by simp [hl])
        exact ⟨rest.dropLast, congrArg (fun l => TraceAction.lockAcq :: l) hr.symm, h⟩

theorem interleave_eq_right (xs ys zs : List (Bool × TraceAction))
    (h : Interleave xs ys zs) : xs = [] → zs = ys := by
  induction h with
  | nil => intro _; rfl
  | left x xs ys zs _ _ => intro hx; exact absurd hx (by simp)
  | right y xs ys zs _ ih => intro hx; rw [ih hx]

theorem interleave_swap (xs ys zs : List (Bool × TraceAction))
    (h : Interleave xs ys zs) : Interleave ys xs zs := by
  induction h with
  | nil => exact .nil
  | left x xs ys zs _ ih => exact .right x ys xs zs ih
  | right y xs ys zs _ ih => exact .left y ys xs zs ih

theorem interleave_append (xs ys : List (Bool × TraceAction)) :
    Interleave xs ys (xs ++ ys) := by
  induction xs with
  | nil =>
    induction ys with
    | nil => exact .nil
    | cons y ys ih => exact .right y [] ys ys ih
  | cons x xs ih => exact .left x xs ys (xs ++ ys) ih

theorem interleave_locked_run (t1 t2 : Bool) :
    ∀ (b1 ys : List TraceAction) (zs : List (Bool × TraceAction)),
    callsOnly b1 = true →
    Interleave (tagThread t1 (b1 ++ [.lockRel])) (tagThread t2 (.lockAcq :: ys)) zs →
    lockValid true zs = true →
    zs = tagThread t1 (b1 ++ [.lockRel]) ++ tagThread t2 (.lockAcq :: ys) := by
  intro b1
  induction b1 with
  | nil =>
    intro ys zs hcalls hil hval
    simp only [List.nil_append, tagThread_cons, tagThread_nil] at hil ⊢
    cases hil with
    | left x xs ys' zs' hil' =>
      rw [interleave_eq_right _ _ _ hil' rfl]
      rfl
    | right y xs ys' zs' hil' =>
      exact absurd hval (by simp [lockValid])
  | cons a b1 ih =>
    intro ys zs hcalls hil hval
    cases a with
    | lockAcq => exact absurd hcalls (by simp [callsOnly])
    | lockRel => exact absurd hcalls (by simp [callsOnly])
    | call c =>
      simp only [List.cons_append, tagThread_cons] at hil ⊢
      cases hil with
      | left x xs ys' zs' hil' =>
        have hval' : lockValid true zs' = true := hval
        have hrec := ih ys zs' hcalls hil' hval'
        simp only [tagThread_cons] at hrec
        rw [hrec]
      | right y xs ys' zs' hil' =>
        exact absurd hval (by simp [lockValid])

theorem bracketed_interleave_serial (tr1 tr2 : List TraceAction)
    (zs : List (Bool × TraceAction))
    (h1 : lockBracketed tr1 = true) (h2 : lockBracketed tr2 = true)
    (hil : Interleave (tagThread true tr1) (tagThread false tr2) zs)
    (hval : lockValid false zs = true) :
    zs = tagThread true tr1 ++ tagThread false tr2 ∨
    zs = tagThread false tr2 ++ tagThread true tr1 := by
  obtain ⟨b1, rfl, hc1⟩ := lockBracketed_elim tr1 h1
  obtain ⟨b2, rfl, hc2⟩ := lockBracketed_elim tr2 h2
  simp only [List.cons_append, tagThread_cons] at hil
  cases hil with
  | left x xs ys' zs' hil' =>
    have hval' : lockValid true zs' = true := hval
    rw [← tagThread_cons false TraceAction.lockAcq (b2 ++ [TraceAction.lockRel])] at hil'
    have hrec := interleave_locked_run true false b1 (b2 ++ [TraceAction.lockRel]) zs' hc1
      hil' hval'
    left
    simp only [tagThread_cons, List.cons_append]
    rw [hrec]
    rfl
  | right y xs ys' zs' hil' =>
    have hval' : lockValid true zs' = true := hval
    rw [← tagThread_cons true TraceAction.lockAcq (b1 ++ [TraceAction.lockRel])] at hil'
    have hil'' := interleave_swap _ _ _ hil'
    have hrec := interleave_locked_run false true b2 (b1 ++ [TraceAction.lockRel]) zs' hc2
      hil'' hval'
    right
    simp only [tagThread_cons, List.cons_append]
    rw [hrec]
    rfl

theorem synthesize_bracketed (eng : Engine) (ctx : Context) (text : String) :
    lockBracketed (Context.synthesize eng ctx text).2.2 = true := by
  unfold Context.synthesize
  rcases eng.setRateErr ctx.rate with _ | e
  · rcases eng.setVolumeErr ctx.volume with _ | e
    · rcases eng.setPitchErr ctx.pitch with _ | e
      · rcases eng.setToneErr ctx.tone with _ | e
        · rcases eng.setVoiceErr ctx.voice with _ | e
          · rcases eng.synthResult text with e | out
            · rfl
            · rfl
          · rfl
        · rfl
      · rfl
    · rfl
  · rfl

theorem SetVoiceProperties_bracketed (eng : Engine) (ctx : Context)
    (name language : String) (gender : Gender) (age variant : Nat) :
    lockBracketed (Context.SetVoiceProperties eng ctx name language gender age variant).2.2
      = true := by
  unfold Context.SetVoiceProperties validVoice
  rcases eng.setVoiceErr { name := name, language := language, gender := gender,
                           age := age, variant := variant } with _ | e
  · rfl
  · rfl

/-- C9: every engine-touching operation — `ListVoices`, `validVoice` (hence
`SetVoiceProperties`), and `synthesize`/`SynthesizeText` with all its
parameter pushes and the synthesis call — produces a lock-bracketed trace:
it acquires the single process-wide lock first, performs only engine calls
while holding it, and releases it last.  Consequently, any lock-valid
schedule interleaving two lock-bracketed operations of two threads runs one
operation to completion before the other begins, so their engine-visible
side effects never interleave. -/
theorem engine_ops_hold_lock :
    (∀ eng, lockBracketed (ListVoices eng).2 = true) ∧
    (∀ eng name language gender age variant,
        lockBracketed (validVoice eng name language gender age variant).2 = true) ∧
    (∀ eng ctx name language gender age variant,
        lockBracketed
          (Context.SetVoiceProperties eng ctx name language gender age variant).2.2 = true) ∧
    (∀ eng ctx text, lockBracketed (Context.synthesize eng ctx text).2.2 = true) ∧
    (∀ eng ctx text, lockBracketed (Context.SynthesizeText eng ctx text).2.2 = true) ∧
    (∀ tr1 tr2 zs, lockBracketed tr1 = true → lockBracketed tr2 = true →
        Interleave (tagThread true tr1) (tagThread false tr2) zs →
        lockValid false zs = true →
        zs = tagThread true tr1 ++ tagThread false tr2 ∨
        zs = tagThread false tr2 ++ tagThread true tr1) := by
  refine ⟨?_, ?_, ?_, ?_, ?_, ?_⟩
  · intro eng
    rfl
  · intro eng name language gender age variant
    rfl
  · intro eng ctx name language gender age variant
    exact SetVoiceProperties_bracketed eng ctx name language gender age variant
  · intro eng ctx text
    exact synthesize_bracketed eng ctx text
  · intro eng ctx text
    exact synthesize_bracketed eng ctx.init text
  · intro tr1 tr2 zs h1 h2 hil hval
    exact bracketed_interleave_serial tr1 tr2 zs h1 h2 hil hval

/-- Witness for C9: a concrete lock-valid schedule of two minimal bracketed
operations is exactly one operation followed by the other. -/
theorem engine_ops_hold_lock_witness :
    [(true, TraceAction.lockAcq), (true, TraceAction.lockRel),
     (false, TraceAction.lockAcq), (false, TraceAction.lockRel)] =
        tagThread true [TraceAction.lockAcq, TraceAction.lockRel] ++
          tagThread false [TraceAction.lockAcq, TraceAction.lockRel] ∨
    [(true, TraceAction.lockAcq), (true, TraceAction.lockRel),
     (false, TraceAction.lockAcq), (false, TraceAction.lockRel)] =
        tagThread false [TraceAction.lockAcq, TraceAction.lockRel] ++
          tagThread true [TraceAction.lockAcq, TraceAction.lockRel] :=
  engine_ops_hold_lock.2.2.2.2.2 [TraceAction.lockAcq, TraceAction.lockRel]
    [TraceAction.lockAcq, TraceAction.lockRel]
    [(true, TraceAction.lockAcq), (true, TraceAction.lockRel),
     (false, TraceAction.lockAcq), (false, TraceAction.lockRel)]
    (by decide) (by decide) (interleave_append _ _) (by decide)

end Espeak
